import Mathlib

/-!
Verification development for the personal-trainer frontend's identity-resolution
and CRUD layer (`services/api.ts`) and the lazy customer loader of
`TrainingList.tsx`.  The network is modelled as an oracle from requests to
responses (or a thrown transport error); every operation returns its result
together with the list of requests it issued, so that short-circuiting and
addressing order are visible in the trace.
-/

namespace PT

/-- `API_BASE_URL` of `services/api.ts`. -/
def API_BASE_URL : String :=
  "https://customer-rest-service-frontend-personaltrainer.2.rahtiapp.fi/api"

/-- `ENDPOINTS.customers`. -/
def customersEndpoint : String := API_BASE_URL ++ "/customers"

/-- `ENDPOINTS.trainings`. -/
def trainingsEndpoint : String := API_BASE_URL ++ "/trainings"

/-- `ENDPOINTS.getTrainings`. -/
def getTrainingsEndpoint : String := API_BASE_URL ++ "/gettrainings"

/-- `ENDPOINTS.reset`. -/
def resetEndpoint : String := API_BASE_URL ++ "/reset"

/-- Relation links of a customer (the `links` block of `Customer` in
`types/index.ts`): each field holds the value reached by the optional chain
`links.f.href`, `none` when the link object is absent at runtime. -/
structure Links where
  self : Option String
  customer : Option String
  trainings : Option String
  deriving DecidableEq

/-- The `Customer` entity of `types/index.ts`: domain attributes, an optional
numeric key `id`, and an optional `links` block. -/
structure Customer where
  id : Option Nat
  firstname : String
  lastname : String
  streetaddress : String
  postcode : String
  city : String
  email : String
  phone : String
  links : Option Links
  deriving DecidableEq

/-- A raw item of the HAL collection payload (`apiCustomer` in `getCustomers`):
domain attributes plus an optional `_links` block. -/
structure RawCustomer where
  id : Option Nat
  firstname : String
  lastname : String
  streetaddress : String
  postcode : String
  city : String
  email : String
  phone : String
  links : Option Links
  deriving DecidableEq

/-- Relation links of a training (`Training.links` in `types/index.ts`).
`self` and `training` hold the `href` values; `customer` is `none` when the
customer link object is absent. -/
structure TrainingLinks where
  self : String
  training : String
  customer : Option String
  deriving DecidableEq

/-- The `Training` entity of `types/index.ts`. -/
structure Training where
  id : Option Nat
  date : String
  duration : Nat
  activity : String
  customer : Option Customer
  links : Option TrainingLinks
  deriving DecidableEq

/-- HTTP method of a request issued through `fetch` or `axios`. -/
inductive Method where
  | get
  | post
  | put
  | delete
  deriving DecidableEq

/-- A serialized request body (`JSON.stringify` argument). -/
inductive ReqBody where
  | customerJson (c : Customer)
  | trainingJson (date : String) (duration : Nat) (activity : String) (customer : String)
  deriving DecidableEq

/-- A network request: method, URL and optional body. -/
structure Request where
  method : Method
  url : String
  body : Option ReqBody
  deriving DecidableEq

/-- A decoded response payload.  `halCustomers` is the HAL collection document
(`none` embedded list models a payload without `_embedded.customers`);
`oneCustomer` a single customer document; `trainingArray` the flat array of
`/gettrainings`; `emptyBody` any payload that decodes to none of these shapes. -/
inductive RespBody where
  | halCustomers (embedded : Option (List RawCustomer))
  | oneCustomer (c : Customer)
  | trainingArray (ts : List Training)
  | emptyBody
  deriving DecidableEq

/-- An HTTP response: status code and decoded body. -/
structure Response where
  status : Nat
  body : RespBody
  deriving DecidableEq

/-- `response.ok` of the Fetch API: status in the range 200..299. -/
def Response.ok (r : Response) : Bool := decide (200 ≤ r.status ∧ r.status ≤ 299)

/-- The network oracle: a thrown transport error (`Except.error`) or a
response.  Deterministic within one operation, which suffices for the
properties below. -/
abbrev Net := Request → Except Unit Response

/-- JavaScript truthiness of an optional string: `undefined` and `""` are
falsy, every other string is truthy. -/
def strTruthy : Option String → Bool
  | none => false
  | some s => decide (s ≠ "")

/-- JavaScript truthiness of an optional number: `undefined` and `0` are
falsy. -/
def natTruthy : Option Nat → Bool
  | none => false
  | some n => decide (n ≠ 0)

/-- Value of the optional chain `customer.links?.self?.href`. -/
def Customer.selfHref (c : Customer) : Option String := c.links.bind Links.self

/-- Value of the optional chain `customer.links?.customer?.href`. -/
def Customer.customerHref (c : Customer) : Option String := c.links.bind Links.customer

/-- Value of the chain `training.links?.self.href`. -/
def Training.selfHref (t : Training) : Option String := t.links.map TrainingLinks.self

/-- Value of the chain `training.links?.customer?.href` (present exactly when
the customer link object is present). -/
def Training.customerHref (t : Training) : Option String := t.links.bind TrainingLinks.customer

/-- `url.split(sep)` for a one-character separator, over character lists. -/
def splitChar (sep : Char) : List Char → List (List Char)
  | [] => [[]]
  | c :: cs =>
    match splitChar sep cs with
    | [] => [[]]
    | seg :: rest => if c = sep then [] :: seg :: rest else (c :: seg) :: rest

/-- `url.split('/')`. -/
def jsSplitSlash (s : String) : List String :=
  (splitChar '/' s.toList).map (fun l => String.mk l)

/-- `s.startsWith(pre)`. -/
def jsStartsWith (s pre : String) : Bool := pre.toList.isPrefixOf s.toList

/-- `extractIdFromUrl` of `services/api.ts`: `null` for an absent or empty URL,
otherwise the trailing path segment, `null` again when that segment is the
empty string. -/
def extractIdFromUrl : Option String → Option String
  | none => none
  | some url =>
    if url = "" then none
    else
      let last := (jsSplitSlash url).getLastD ""
      if last = "" then none else some last

/-- The `Customer | string` argument of `getCustomerId` and `deleteCustomer`. -/
inductive CustomerRef where
  | ofString (s : String)
  | ofCustomer (c : Customer)
  deriving DecidableEq

/-- `getCustomerId` of `services/api.ts`: a raw string is given to
`extractIdFromUrl`; for an object, the id is extracted from the self link when
its href is truthy, else from the customer link when truthy, else `null`. -/
def getCustomerId : CustomerRef → Option String
  | .ofString s => extractIdFromUrl (some s)
  | .ofCustomer c =>
    if strTruthy c.selfHref then extractIdFromUrl c.selfHref
    else if strTruthy c.customerHref then extractIdFromUrl c.customerHref
    else none

/-- Value of `apiCustomer._links?.f?.href || ''`. -/
def hrefOrEmpty (l : Option Links) (f : Links → Option String) : String :=
  (l.bind f).getD ""

/-- The mapping `getCustomers` applies to each raw collection item: the domain
attributes are copied, the numeric key is not copied, and every canonical link
field is filled with the backend href or the empty-string placeholder. -/
def normalizeApiCustomer (a : RawCustomer) : Customer where
  id := none
  firstname := a.firstname
  lastname := a.lastname
  streetaddress := a.streetaddress
  postcode := a.postcode
  city := a.city
  email := a.email
  phone := a.phone
  links := some
    { self := some (hrefOrEmpty a.links Links.self)
      customer := some (hrefOrEmpty a.links Links.customer)
      trainings := some (hrefOrEmpty a.links Links.trainings) }

/-- One guarded fetch: the response's `ok` flag as the result, `false` when the
transport throws; the single issued request as the trace. -/
def respOk (net : Net) (req : Request) : Bool × List Request :=
  match net req with
  | .error _ => (false, [req])
  | .ok r => (r.ok, [req])

/-- The GET request of `getCustomers`. -/
def getCustomersReq : Request := ⟨Method.get, customersEndpoint, none⟩

/-- `getCustomers`: GET the collection endpoint; on a non-ok status, a thrown
transport error, or a payload without an embedded customer array the result is
`[]`; otherwise the embedded items are mapped through `normalizeApiCustomer`. -/
def getCustomers (net : Net) : List Customer × List Request :=
  match net getCustomersReq with
  | .error _ => ([], [getCustomersReq])
  | .ok r =>
    if r.ok then
      match r.body with
      | .halCustomers (some cs) => (cs.map normalizeApiCustomer, [getCustomersReq])
      | _ => ([], [getCustomersReq])
    else ([], [getCustomersReq])

/-- The POST request of `addCustomer`. -/
def addCustomerReq (c : Customer) : Request :=
  ⟨Method.post, customersEndpoint, some (.customerJson c)⟩

/-- `addCustomer`: POST the customer; the result is `response.status === 201`,
`false` when the transport throws. -/
def addCustomer (net : Net) (c : Customer) : Bool × List Request :=
  match net (addCustomerReq c) with
  | .error _ => (false, [addCustomerReq c])
  | .ok r => (decide (r.status = 201), [addCustomerReq c])

/-- The predicate of the `find` call in `findCustomerByData`: equality on
first name, last name and email. -/
def matchesCustomerData (customer c : Customer) : Bool :=
  c.firstname == customer.firstname && c.lastname == customer.lastname
    && c.email == customer.email

/-- The by-id GET request of `findCustomerByData`. -/
def byIdReq (cid : String) : Request :=
  ⟨Method.get, customersEndpoint ++ "/" ++ cid, none⟩

/-- `findCustomerByData`: when an id is resolvable, GET the customer by id and
return the decoded document; on any failure of that lookup (thrown fetch,
non-ok status, or a body that is not a single customer document, standing for
`response.json()` throwing) fall through to the full collection and return its
first attribute match, `none` when there is none. -/
def findCustomerByData (net : Net) (customer : Customer) : Option Customer × List Request :=
  match getCustomerId (.ofCustomer customer) with
  | some cid =>
    match net (byIdReq cid) with
    | .ok r =>
      if r.ok then
        match r.body with
        | .oneCustomer c => (some c, [byIdReq cid])
        | _ =>
          let gc := getCustomers net
          (gc.1.find? (matchesCustomerData customer), byIdReq cid :: gc.2)
      else
        let gc := getCustomers net
        (gc.1.find? (matchesCustomerData customer), byIdReq cid :: gc.2)
    | .error _ =>
      let gc := getCustomers net
      (gc.1.find? (matchesCustomerData customer), byIdReq cid :: gc.2)
  | none =>
    let gc := getCustomers net
    (gc.1.find? (matchesCustomerData customer), gc.2)

/-- A PUT request carrying the serialized customer. -/
def putCustomerReq (url : String) (c : Customer) : Request :=
  ⟨Method.put, url, some (.customerJson c)⟩

/-- `updateCustomer`: PUT to the self link when its href is truthy; else PUT to
the address synthesized from the id resolved by `getCustomerId`; else look the
customer up by matching data and PUT to the match's self link when truthy; as
a last resort fall back to `addCustomer`. -/
def updateCustomer (net : Net) (customer : Customer) : Bool × List Request :=
  if strTruthy customer.selfHref then
    respOk net (putCustomerReq (customer.selfHref.getD "") customer)
  else
    match getCustomerId (.ofCustomer customer) with
    | some cid => respOk net (putCustomerReq (customersEndpoint ++ "/" ++ cid) customer)
    | none =>
      match findCustomerByData net customer with
      | (some mc, t1) =>
        if strTruthy mc.selfHref then
          let pr := respOk net (putCustomerReq (mc.selfHref.getD "") customer)
          (pr.1, t1 ++ pr.2)
        else
          let ar := addCustomer net customer
          (ar.1, t1 ++ ar.2)
      | (none, t1) =>
        let ar := addCustomer net customer
        (ar.1, t1 ++ ar.2)

/-- `deleteCustomer`: a raw string is DELETEd directly (as a full URL when it
starts with `http`, else appended to the collection endpoint); an object is
DELETEd at its truthy self link, else looked up by matching data and DELETEd at
the match's truthy self link, else the operation fails with no request. -/
def deleteCustomer (net : Net) : CustomerRef → Bool × List Request
  | .ofString s =>
    if jsStartsWith s "http" then respOk net ⟨Method.delete, s, none⟩
    else respOk net ⟨Method.delete, customersEndpoint ++ "/" ++ s, none⟩
  | .ofCustomer c =>
    if strTruthy c.selfHref then
      respOk net ⟨Method.delete, c.selfHref.getD "", none⟩
    else
      match findCustomerByData net c with
      | (some mc, t1) =>
        if strTruthy mc.selfHref then
          let dr := respOk net ⟨Method.delete, mc.selfHref.getD "", none⟩
          (dr.1, t1 ++ dr.2)
        else (false, t1)
      | (none, t1) => (false, t1)

/-- The GET request of `getTrainings`. -/
def getTrainingsReq : Request := ⟨Method.get, getTrainingsEndpoint, none⟩

/-- `getTrainings`: GET `/gettrainings`; the decoded flat array on success,
`[]` on a thrown transport error or non-ok status (a body of another shape
stands for a payload that does not decode to a training array). -/
def getTrainings (net : Net) : List Training × List Request :=
  match net getTrainingsReq with
  | .error _ => ([], [getTrainingsReq])
  | .ok r =>
    if r.ok then
      match r.body with
      | .trainingArray ts => (ts, [getTrainingsReq])
      | _ => ([], [getTrainingsReq])
    else ([], [getTrainingsReq])

/-- The argument of `addTraining` and `updateTraining`: training attributes
plus a caller-supplied customer reference string. -/
structure TrainingInput where
  date : String
  duration : Nat
  activity : String
  customer : String
  deriving DecidableEq

/-- The customer-reference normalization shared by `addTraining` and
`updateTraining`: a reference that does not start with `http` is appended to
the customers collection endpoint. -/
def normalizeCustomerUrl (s : String) : String :=
  if jsStartsWith s "http" then s else customersEndpoint ++ "/" ++ s

/-- The serialized `trainingPayload` object. -/
def trainingPayload (t : TrainingInput) : ReqBody :=
  .trainingJson t.date t.duration t.activity (normalizeCustomerUrl t.customer)

/-- The POST request of `addTraining`. -/
def addTrainingReq (t : TrainingInput) : Request :=
  ⟨Method.post, trainingsEndpoint, some (trainingPayload t)⟩

/-- `addTraining`: POST the payload; the result is `response.ok`. -/
def addTraining (net : Net) (t : TrainingInput) : Bool × List Request :=
  respOk net (addTrainingReq t)

/-- The PUT request of `updateTraining`. -/
def updateTrainingReq (trainingId : String) (t : TrainingInput) : Request :=
  ⟨Method.put, trainingsEndpoint ++ "/" ++ trainingId, some (trainingPayload t)⟩

/-- `updateTraining`: PUT the payload to the id-addressed URL; the result is
`response.ok`. -/
def updateTraining (net : Net) (trainingId : String) (t : TrainingInput) : Bool × List Request :=
  respOk net (updateTrainingReq trainingId t)

/-- The `Training | string` argument of `deleteTraining`. -/
inductive TrainingRef where
  | ofString (s : String)
  | ofTraining (t : Training)
  deriving DecidableEq

/-- `deleteTraining`: a raw string is DELETEd directly (full URL or id); an
object is DELETEd at its truthy self link, else at the URL synthesized from a
truthy numeric key, else the operation fails with no request. -/
def deleteTraining (net : Net) : TrainingRef → Bool × List Request
  | .ofString s =>
    if jsStartsWith s "http" then respOk net ⟨Method.delete, s, none⟩
    else respOk net ⟨Method.delete, trainingsEndpoint ++ "/" ++ s, none⟩
  | .ofTraining t =>
    if strTruthy t.selfHref then
      respOk net ⟨Method.delete, t.selfHref.getD "", none⟩
    else if natTruthy t.id then
      respOk net ⟨Method.delete, trainingsEndpoint ++ "/" ++ toString (t.id.getD 0), none⟩
    else (false, [])

/-- `resetDatabase`: POST to the reset endpoint; the result is `response.ok`. -/
def resetDatabase (net : Net) : Bool × List Request :=
  respOk net ⟨Method.post, resetEndpoint, none⟩

/-- The merge step of `fetchCustomerForTraining` (`TrainingList.tsx`): set the
fetched customer on every training of the collection whose own self href equals
the parent training's self href, leaving every other training unchanged. -/
def mergeCustomerIntoTrainings (trainings : List Training) (training : Training)
    (cu : Customer) : List Training :=
  trainings.map fun t =>
    if t.selfHref = training.selfHref then { t with customer := some cu } else t

/-- The GET request `fetchCustomerForTraining` issues for the parent's
customer link. -/
def customerLinkReq (training : Training) : Request :=
  ⟨Method.get, training.customerHref.getD "", none⟩

/-- `fetchCustomerForTraining` (`TrainingList.tsx`): when the training has no
embedded customer and carries a customer link object, GET that link and merge
the decoded customer into the collection; on a thrown transport error, a
non-2xx response (axios rejects), or an undecodable document the collection is
left unchanged. -/
def fetchCustomerForTraining (net : Net) (trainings : List Training)
    (training : Training) : List Training × List Request :=
  if training.customer.isNone && training.customerHref.isSome then
    match net (customerLinkReq training) with
    | .error _ => (trainings, [customerLinkReq training])
    | .ok r =>
      if r.ok then
        match r.body with
        | .oneCustomer cu =>
          (mergeCustomerIntoTrainings trainings training cu, [customerLinkReq training])
        | _ => (trainings, [customerLinkReq training])
      else (trainings, [customerLinkReq training])
  else (trainings, [])

/-! Concrete fixtures used by witnesses and counterexamples. -/

/-- A network on which every request throws a transport error. -/
def netErr : Net := fun _ => Except.error ()

/-- A network answering every request with status 200 and an empty body. -/
def net200 : Net := fun _ => Except.ok ⟨200, RespBody.emptyBody⟩

/-- A network answering every request with status 201 and an empty body. -/
def net201 : Net := fun _ => Except.ok ⟨201, RespBody.emptyBody⟩

/-- A network answering every request with status 404 and an empty body. -/
def net404 : Net := fun _ => Except.ok ⟨404, RespBody.emptyBody⟩

/-- A network whose customer collection payload has no embedded array. -/
def netNoEmb : Net := fun _ => Except.ok ⟨200, RespBody.halCustomers none⟩

/-- A customer carrying a self link with trailing id 7. -/
def cSelfEx : Customer :=
  ⟨none, "Maija", "Mallikas", "Street 1", "00100", "Helsinki", "maija@mail.fi", "0401234567",
    some ⟨some (customersEndpoint ++ "/7"), some "", some ""⟩⟩

/-- A customer carrying the numeric key 5 and no links. -/
def cKeyEx : Customer :=
  ⟨some 5, "Kalle", "Kayttaja", "Street 2", "00200", "Espoo", "kalle@mail.fi", "0407654321", none⟩

/-- A customer with neither a numeric key nor links. -/
def c0 : Customer :=
  ⟨none, "Test", "User", "S", "P", "C", "test@user.fi", "0", none⟩

/-- First of two raw collection items agreeing on all discriminating
attributes. -/
def rawA : RawCustomer :=
  ⟨none, "Anna", "Aalto", "S1", "00100", "Helsinki", "anna@mail.fi", "1",
    some ⟨some (customersEndpoint ++ "/1"), some "", some ""⟩⟩

/-- Second of two raw collection items agreeing on all discriminating
attributes. -/
def rawB : RawCustomer :=
  ⟨none, "Anna", "Aalto", "S2", "00200", "Espoo", "anna@mail.fi", "2",
    some ⟨some (customersEndpoint ++ "/2"), some "", some ""⟩⟩

/-- A keyless, linkless customer whose attributes match `rawA` and `rawB`. -/
def cDup : Customer :=
  ⟨none, "Anna", "Aalto", "X", "X", "X", "anna@mail.fi", "9", none⟩

/-- A network whose customer collection holds the two ambiguous records. -/
def netDup : Net := fun r =>
  if r = getCustomersReq then Except.ok ⟨200, RespBody.halCustomers (some [rawA, rawB])⟩
  else Except.error ()

/-- The training input of the creation scenario. -/
def trYoga : TrainingInput := ⟨"2024-01-01T10:00:00Z", 60, "Yoga", "customers/5"⟩

/-- A training with a numeric key and no links. -/
def tEx : Training := ⟨some 3, "2024-02-02T09:00:00Z", 30, "Run", none, none⟩

/-- A training carrying a customer link and no embedded customer. -/
def tParent : Training :=
  ⟨none, "2024-03-03T09:00:00Z", 45, "Swim", none,
    some ⟨trainingsEndpoint ++ "/4", trainingsEndpoint ++ "/4/training",
      some (customersEndpoint ++ "/5")⟩⟩

/-- A network answering every request with the decoded customer `c0`. -/
def netCust : Net := fun _ => Except.ok ⟨200, RespBody.oneCustomer c0⟩

/-! Helper lemmas about the operations' shapes. -/

/-- A guarded fetch issues exactly its one request. -/
theorem respOk_trace (net : Net) (req : Request) : (respOk net req).2 = [req] := by
  unfold respOk
  cases net req <;> rfl

/-- On a network that throws, a guarded fetch reports failure. -/
theorem respOk_throw (net : Net) (req : Request) (h : net req = Except.error ()) :
    respOk net req = (false, [req]) := by
  simp [respOk, h]

/-- On an ok answer, a guarded fetch reports the response's ok flag. -/
theorem respOk_ok (net : Net) (req : Request) (r : Response) (h : net req = Except.ok r) :
    respOk net req = (r.ok, [req]) := by
  simp [respOk, h]

/-- `getCustomers` issues exactly the one collection GET. -/
theorem getCustomers_trace (net : Net) : (getCustomers net).2 = [getCustomersReq] := by
  unfold getCustomers
  cases net getCustomersReq with
  | error e => rfl
  | ok r =>
    by_cases hok : r.ok = true
    · simp only [hok, if_true]
      cases r.body with
      | halCustomers emb => cases emb <;> rfl
      | oneCustomer c => rfl
      | trainingArray ts => rfl
      | emptyBody => rfl
    · simp only [hok, if_false, Bool.false_eq_true]

/-- The first element of a filtered list is the first element satisfying the
predicate. -/
theorem find_eq_filter_head {α : Type} (p : α → Bool) (l : List α) :
    l.find? p = (l.filter p).head? := by
  induction l with
  | nil => rfl
  | cons a t ih =>
    cases h : p a with
    | true => simp [List.find?_cons, List.filter_cons, h]
    | false => simp only [List.find?_cons, List.filter_cons, h, if_false, Bool.false_eq_true, ih]

/-- When no id is resolvable, `findCustomerByData` is exactly the first
attribute match over the fetched collection. -/
theorem findCustomerByData_resolverNone (net : Net) (c : Customer)
    (h : getCustomerId (CustomerRef.ofCustomer c) = none) :
    findCustomerByData net c
      = ((getCustomers net).1.find? (matchesCustomerData c), (getCustomers net).2) := by
  simp [findCustomerByData, h]

/-- `updateCustomer`, step 1: a truthy self link is PUT directly. -/
theorem updateCustomer_self (net : Net) (c : Customer) (h : strTruthy c.selfHref = true) :
    updateCustomer net c = respOk net (putCustomerReq (c.selfHref.getD "") c) := by
  simp [updateCustomer, h]

/-- `updateCustomer`, step 2: with a falsy self link and a resolvable id, the
PUT goes to the synthesized address. -/
theorem updateCustomer_byId (net : Net) (c : Customer) (cid : String)
    (h1 : strTruthy c.selfHref = false)
    (h2 : getCustomerId (CustomerRef.ofCustomer c) = some cid) :
    updateCustomer net c = respOk net (putCustomerReq (customersEndpoint ++ "/" ++ cid) c) := by
  simp [updateCustomer, h1, h2]

/-- `updateCustomer`, step 3: with no resolvable id and a data match carrying a
truthy self link, the PUT goes to the match's self link. -/
theorem updateCustomer_matched (net : Net) (c mc : Customer) (t1 : List Request)
    (h1 : strTruthy c.selfHref = false)
    (h2 : getCustomerId (CustomerRef.ofCustomer c) = none)
    (h3 : findCustomerByData net c = (some mc, t1))
    (h4 : strTruthy mc.selfHref = true) :
    updateCustomer net c
      = ((respOk net (putCustomerReq (mc.selfHref.getD "") c)).1,
         t1 ++ (respOk net (putCustomerReq (mc.selfHref.getD "") c)).2) := by
  simp [updateCustomer, h1, h2, h3, h4]

/-- `updateCustomer`, step 4 with an unusable match: fall back to create. -/
theorem updateCustomer_fallback_matchNoSelf (net : Net) (c mc : Customer) (t1 : List Request)
    (h1 : strTruthy c.selfHref = false)
    (h2 : getCustomerId (CustomerRef.ofCustomer c) = none)
    (h3 : findCustomerByData net c = (some mc, t1))
    (h4 : strTruthy mc.selfHref = false) :
    updateCustomer net c = ((addCustomer net c).1, t1 ++ (addCustomer net c).2) := by
  simp [updateCustomer, h1, h2, h3, h4]

/-- `updateCustomer`, step 4 with no match: fall back to create. -/
theorem updateCustomer_fallback_noMatch (net : Net) (c : Customer) (t1 : List Request)
    (h1 : strTruthy c.selfHref = false)
    (h2 : getCustomerId (CustomerRef.ofCustomer c) = none)
    (h3 : findCustomerByData net c = (none, t1)) :
    updateCustomer net c = ((addCustomer net c).1, t1 ++ (addCustomer net c).2) := by
  simp [updateCustomer, h1, h2, h3]

/-- `deleteCustomer` on an object, step 3 with no match: the operation reports
failure after the lookup, with no further request. -/
theorem deleteCustomer_noMatch (net : Net) (c : Customer) (t1 : List Request)
    (h1 : strTruthy c.selfHref = false)
    (h3 : findCustomerByData net c = (none, t1)) :
    deleteCustomer net (CustomerRef.ofCustomer c) = (false, t1) := by
  simp [deleteCustomer, h1, h3]

/-- `deleteCustomer` on an object, step 3 with a match carrying a truthy self
link: DELETE that link. -/
theorem deleteCustomer_matched (net : Net) (c mc : Customer) (t1 : List Request)
    (h1 : strTruthy c.selfHref = false)
    (h3 : findCustomerByData net c = (some mc, t1))
    (h4 : strTruthy mc.selfHref = true) :
    deleteCustomer net (CustomerRef.ofCustomer c)
      = ((respOk net ⟨Method.delete, mc.selfHref.getD "", none⟩).1,
         t1 ++ (respOk net ⟨Method.delete, mc.selfHref.getD "", none⟩).2) := by
  simp [deleteCustomer, h1, h3, h4]

/-- `deleteCustomer` on an object, step 3 with a match whose self link is not
truthy: report failure after the lookup. -/
theorem deleteCustomer_matchNoSelf (net : Net) (c mc : Customer) (t1 : List Request)
    (h1 : strTruthy c.selfHref = false)
    (h3 : findCustomerByData net c = (some mc, t1))
    (h4 : strTruthy mc.selfHref = false) :
    deleteCustomer net (CustomerRef.ofCustomer c) = (false, t1) := by
  simp [deleteCustomer, h1, h3, h4]

/-! Claim theorems. -/

/-- C1 (counterexample): the resolver does not return a carried `self` relation
address unchanged — for a customer whose self link is `<base>/customers/7` it
returns the bare trailing segment `"7"` — and for an entity carrying the
numeric key `5` and no links it returns `none` instead of the synthesized
address `base ++ "/5"`. -/
theorem C1_counterexample :
    getCustomerId (CustomerRef.ofCustomer cSelfEx) = some "7"
    ∧ cSelfEx.selfHref = some (customersEndpoint ++ "/7")
    ∧ some "7" ≠ some (customersEndpoint ++ "/7")
    ∧ cKeyEx.id = some 5
    ∧ getCustomerId (CustomerRef.ofCustomer cKeyEx) = none
    ∧ (none : Option String) ≠ some (customersEndpoint ++ "/5") := by
  exact ⟨by decide, rfl, by decide, rfl, rfl, by decide⟩

/-- C1 (amended): resolution follows the precedence (1) raw address string →
its trailing path segment, (2) truthy `self` relation href → the trailing
segment of that href, (3) truthy `customer` relation href → its trailing
segment, (4) otherwise `none`; the numeric key field is never consulted, and a
carried address is reduced to its identifier rather than returned unchanged or
synthesized from the key. -/
theorem C1_resolver_precedence (c : Customer) (s : String) (n : Option Nat) :
    getCustomerId (CustomerRef.ofString s) = extractIdFromUrl (some s)
    ∧ (strTruthy c.selfHref = true →
        getCustomerId (CustomerRef.ofCustomer c) = extractIdFromUrl c.selfHref)
    ∧ (strTruthy c.selfHref = false → strTruthy c.customerHref = true →
        getCustomerId (CustomerRef.ofCustomer c) = extractIdFromUrl c.customerHref)
    ∧ (strTruthy c.selfHref = false → strTruthy c.customerHref = false →
        getCustomerId (CustomerRef.ofCustomer c) = none)
    ∧ getCustomerId (CustomerRef.ofCustomer { c with id := n })
        = getCustomerId (CustomerRef.ofCustomer c) := by
  refine ⟨rfl, ?_, ?_, ?_, rfl⟩
  · intro h
    simp [getCustomerId, h]
  · intro h1 h2
    simp [getCustomerId, h1, h2]
  · intro h1 h2
    simp [getCustomerId, h1, h2]

/-- C1 (witness): the amended precedence evaluated on the concrete fixtures. -/
theorem C1_resolver_precedence_witness :
    getCustomerId (CustomerRef.ofCustomer cSelfEx) = extractIdFromUrl cSelfEx.selfHref
    ∧ getCustomerId (CustomerRef.ofCustomer c0) = none :=
  ⟨(C1_resolver_precedence cSelfEx "x" none).2.1 (by decide),
   (C1_resolver_precedence c0 "x" none).2.2.2.1 (by decide) (by decide)⟩

/-- C2 (counterexample): on an entity with no key and no relation addresses,
`updateCustomer` and `deleteCustomer` do issue network requests (the
attribute-lookup GET, and for update also the fallback POST), and on a backend
answering 201 the update even reports success. -/
theorem C2_counterexample :
    (updateCustomer netErr c0).2 = [getCustomersReq, addCustomerReq c0]
    ∧ (updateCustomer netErr c0).2 ≠ []
    ∧ (deleteCustomer netErr (CustomerRef.ofCustomer c0)).2 = [getCustomersReq]
    ∧ (deleteCustomer netErr (CustomerRef.ofCustomer c0)).2 ≠ []
    ∧ (updateCustomer net201 c0).1 = true := by
  exact ⟨rfl, by decide, rfl, by decide, by decide⟩

/-- C2 (amended): for an entity with no numeric key and no truthy relation
hrefs the resolver returns `none`, but neither `updateCustomer` nor
`deleteCustomer` short-circuits: each first issues the attribute-lookup
collection GET; when that lookup yields no match, delete reports failure and
update falls back to create, reporting the create's outcome. -/
theorem C2_unaddressable_lookup_then_create (net : Net) (c : Customer)
    (hid : c.id = none)
    (h1 : strTruthy c.selfHref = false) (h2 : strTruthy c.customerHref = false) :
    getCustomerId (CustomerRef.ofCustomer c) = none
    ∧ (updateCustomer net c).2.head? = some getCustomersReq
    ∧ (deleteCustomer net (CustomerRef.ofCustomer c)).2.head? = some getCustomersReq
    ∧ ((findCustomerByData net c).1 = none →
        (deleteCustomer net (CustomerRef.ofCustomer c)).1 = false
        ∧ updateCustomer net c
            = ((addCustomer net c).1, (findCustomerByData net c).2 ++ (addCustomer net c).2)) := by
  have hres : getCustomerId (CustomerRef.ofCustomer c) = none := by
    simp [getCustomerId, h1, h2]
  have hfd := findCustomerByData_resolverNone net c hres
  have htr2 : (findCustomerByData net c).2 = [getCustomersReq] := by
    rw [hfd]
    exact getCustomers_trace net
  refine ⟨hres, ?_, ?_, ?_⟩
  · rcases hpair : findCustomerByData net c with ⟨m, t1⟩
    have ht1 : t1 = [getCustomersReq] := by rw [← htr2, hpair]
    subst ht1
    cases m with
    | none =>
      rw [updateCustomer_fallback_noMatch net c _ h1 hres hpair]
      simp
    | some mc =>
      cases hks : strTruthy mc.selfHref with
      | true =>
        rw [updateCustomer_matched net c mc _ h1 hres hpair hks]
        simp
      | false =>
        rw [updateCustomer_fallback_matchNoSelf net c mc _ h1 hres hpair hks]
        simp
  · rcases hpair : findCustomerByData net c with ⟨m, t1⟩
    have ht1 : t1 = [getCustomersReq] := by rw [← htr2, hpair]
    subst ht1
    cases m with
    | none =>
      rw [deleteCustomer_noMatch net c _ h1 hpair]
      simp
    | some mc =>
      cases hks : strTruthy mc.selfHref with
      | true =>
        rw [deleteCustomer_matched net c mc _ h1 hpair hks]
        simp
      | false =>
        rw [deleteCustomer_matchNoSelf net c mc _ h1 hpair hks]
        simp
  · intro hm
    rcases hpair : findCustomerByData net c with ⟨m, t1⟩
    have hm0 : m = none := by
      rw [hpair] at hm
      exact hm
    subst hm0
    refine ⟨?_, ?_⟩
    · rw [deleteCustomer_noMatch net c _ h1 hpair]
    · simp only [updateCustomer_fallback_noMatch net c _ h1 hres hpair, hpair]

/-- C2 (witness): the amended behavior evaluated on the keyless, linkless
fixture. -/
theorem C2_unaddressable_witness :
    getCustomerId (CustomerRef.ofCustomer c0) = none
    ∧ (deleteCustomer netErr (CustomerRef.ofCustomer c0)).1 = false :=
  ⟨(C2_unaddressable_lookup_then_create netErr c0 rfl rfl rfl).1,
   ((C2_unaddressable_lookup_then_create netErr c0 rfl rfl rfl).2.2.2 (by decide)).1⟩

/-- C3 (counterexample): for a customer carrying the numeric key 5 and no
links, the update issues requests but never a PUT — the claimed step
"PUT to an address synthesized from its numeric key" does not exist, the code
jumps from the link-based resolution straight to attribute lookup and create. -/
theorem C3_counterexample :
    cKeyEx.id = some 5
    ∧ strTruthy cKeyEx.selfHref = false
    ∧ (updateCustomer netErr cKeyEx).2 ≠ []
    ∧ ((updateCustomer netErr cKeyEx).2.all fun r => decide (r.method ≠ Method.put)) = true := by
  exact ⟨rfl, rfl, by decide, by decide⟩

/-- C3 (amended): `updateCustomer` tries, in order, (1) PUT to the entity's
truthy `self` relation href; (2) PUT to the address synthesized from the
identifier resolved out of its relation links by `getCustomerId` (not from the
numeric key field, which is never consulted); (3) locate the entity by
discriminating attributes and PUT to the located record's truthy self href;
(4) otherwise fall back to create. -/
theorem C3_update_addressing_order (net : Net) (c : Customer) :
    (strTruthy c.selfHref = true →
      updateCustomer net c = respOk net (putCustomerReq (c.selfHref.getD "") c))
    ∧ (strTruthy c.selfHref = false →
        ∀ cid, getCustomerId (CustomerRef.ofCustomer c) = some cid →
          updateCustomer net c
            = respOk net (putCustomerReq (customersEndpoint ++ "/" ++ cid) c))
    ∧ (strTruthy c.selfHref = false →
        getCustomerId (CustomerRef.ofCustomer c) = none →
        ∀ mc t1, findCustomerByData net c = (some mc, t1) →
          (strTruthy mc.selfHref = true →
            updateCustomer net c
              = ((respOk net (putCustomerReq (mc.selfHref.getD "") c)).1,
                 t1 ++ (respOk net (putCustomerReq (mc.selfHref.getD "") c)).2))
          ∧ (strTruthy mc.selfHref = false →
              updateCustomer net c = ((addCustomer net c).1, t1 ++ (addCustomer net c).2)))
    ∧ (strTruthy c.selfHref = false →
        getCustomerId (CustomerRef.ofCustomer c) = none →
        ∀ t1, findCustomerByData net c = (none, t1) →
          updateCustomer net c = ((addCustomer net c).1, t1 ++ (addCustomer net c).2)) := by
  refine ⟨fun h => updateCustomer_self net c h,
    fun h1 cid h2 => updateCustomer_byId net c cid h1 h2,
    fun h1 h2 mc t1 h3 =>
      ⟨fun h4 => updateCustomer_matched net c mc t1 h1 h2 h3 h4,
       fun h4 => updateCustomer_fallback_matchNoSelf net c mc t1 h1 h2 h3 h4⟩,
    fun h1 h2 t1 h3 => updateCustomer_fallback_noMatch net c t1 h1 h2 h3⟩

/-- C3 (witness): step 1 on the self-linked fixture and step 4 on the keyless,
linkless fixture. -/
theorem C3_update_addressing_order_witness :
    updateCustomer netErr cSelfEx
      = respOk netErr (putCustomerReq (cSelfEx.selfHref.getD "") cSelfEx)
    ∧ updateCustomer netErr c0
      = ((addCustomer netErr c0).1, [getCustomersReq] ++ (addCustomer netErr c0).2) :=
  ⟨(C3_update_addressing_order netErr cSelfEx).1 (by decide),
   (C3_update_addressing_order netErr c0).2.2.2 (by decide) (by decide)
     [getCustomersReq] (by decide)⟩

/-- C4 (counterexample): with two existing records agreeing on first name,
last name and email, the discriminating-attribute lookup does not treat the
ambiguity as "not found" — it returns the first matching candidate. -/
theorem C4_counterexample :
    ((getCustomers netDup).1.filter (matchesCustomerData cDup)).length = 2
    ∧ (findCustomerByData netDup cDup).1 = some (normalizeApiCustomer rawA)
    ∧ (findCustomerByData netDup cDup).1 ≠ none := by
  exact ⟨by decide, by decide, by decide⟩

/-- C4 (amended): when no id is resolvable the lookup returns the head of the
attribute-filtered collection — `none` for zero candidates, the first match in
collection order otherwise (multiple candidates are not rejected) — and the
fallback update then addresses exactly the returned record's self href. -/
theorem C4_attribute_match_takes_first (net : Net) (c : Customer)
    (h : getCustomerId (CustomerRef.ofCustomer c) = none) :
    (findCustomerByData net c).1
        = ((getCustomers net).1.filter (matchesCustomerData c)).head?
    ∧ (((getCustomers net).1.filter (matchesCustomerData c)).length = 0 →
        (findCustomerByData net c).1 = none)
    ∧ (∀ mc t1, findCustomerByData net c = (some mc, t1) →
        strTruthy c.selfHref = false → strTruthy mc.selfHref = true →
          updateCustomer net c
            = ((respOk net (putCustomerReq (mc.selfHref.getD "") c)).1,
               t1 ++ [putCustomerReq (mc.selfHref.getD "") c])) := by
  have hfd := findCustomerByData_resolverNone net c h
  have h1 : (findCustomerByData net c).1
      = (getCustomers net).1.find? (matchesCustomerData c) := by
    rw [hfd]
  refine ⟨?_, ?_, ?_⟩
  · rw [h1, find_eq_filter_head]
  · intro hlen
    rw [h1, find_eq_filter_head]
    rw [List.length_eq_zero] at hlen
    rw [hlen]
    rfl
  · intro mc t1 h3 hself h4
    rw [updateCustomer_matched net c mc t1 hself h h3 h4, respOk_trace]

/-- C4 (witness): the amended lookup evaluated on the ambiguous fixture. -/
theorem C4_attribute_match_takes_first_witness :
    (findCustomerByData netDup cDup).1
      = ((getCustomers netDup).1.filter (matchesCustomerData cDup)).head? :=
  (C4_attribute_match_takes_first netDup cDup (by decide)).1

/-- C5 (counterexample): a Training created with the customer reference
`"customers/5"` produces a request body whose customer field is
`<base>/customers/customers/5` — the collection endpoint is prefixed verbatim —
not the claimed `<base>/customers/5`. -/
theorem C5_counterexample :
    (addTraining netErr trYoga).2
      = [⟨Method.post, trainingsEndpoint,
          some (ReqBody.trainingJson "2024-01-01T10:00:00Z" 60 "Yoga"
            (customersEndpoint ++ "/customers/5"))⟩]
    ∧ customersEndpoint ++ "/customers/5" ≠ API_BASE_URL ++ "/customers/5" := by
  exact ⟨by decide, by decide⟩

/-- C5 (amended): before the body is built the caller-supplied customer
reference is normalized by prefixing the customers collection endpoint and a
slash whenever the reference does not start with `http` (so a numeric id `"5"`
becomes `<base>/customers/5`, while the relative path `"customers/5"` becomes
`<base>/customers/customers/5`), and a reference starting with `http` is kept
unchanged. -/
theorem C5_customer_reference_normalized (net : Net) (t : TrainingInput) :
    (addTraining net t).2 = [addTrainingReq t]
    ∧ (addTrainingReq t).body
        = some (ReqBody.trainingJson t.date t.duration t.activity
            (normalizeCustomerUrl t.customer))
    ∧ (jsStartsWith t.customer "http" = false →
        normalizeCustomerUrl t.customer = customersEndpoint ++ "/" ++ t.customer)
    ∧ (jsStartsWith t.customer "http" = true →
        normalizeCustomerUrl t.customer = t.customer) := by
  refine ⟨respOk_trace net (addTrainingReq t), rfl, ?_, ?_⟩
  · intro h
    simp [normalizeCustomerUrl, h]
  · intro h
    simp [normalizeCustomerUrl, h]

/-- C5 (witness): the normalization evaluated on the scenario input. -/
theorem C5_customer_reference_normalized_witness :
    (addTraining netErr trYoga).2 = [addTrainingReq trYoga]
    ∧ normalizeCustomerUrl trYoga.customer = customersEndpoint ++ "/" ++ trYoga.customer :=
  ⟨(C5_customer_reference_normalized netErr trYoga).1,
   (C5_customer_reference_normalized netErr trYoga).2.2.1 (by decide)⟩

/-- C6 (counterexample): a training creation answered with status 200 (not the
"created" status 201) still reports success, because `addTraining` accepts any
2xx response. -/
theorem C6_counterexample :
    (addTraining net200 trYoga).1 = true
    ∧ net200 (addTrainingReq trYoga) = Except.ok ⟨200, RespBody.emptyBody⟩
    ∧ (200 : Nat) ≠ 201 := by
  exact ⟨by decide, rfl, by decide⟩

/-- C6 (amended): customer creation reports success exactly on status 201,
while training creation reports success exactly on an ok (2xx) response. -/
theorem C6_create_success_statuses (net : Net) (c : Customer) (t : TrainingInput) :
    ((addCustomer net c).1 = true ↔
      ∃ r, net (addCustomerReq c) = Except.ok r ∧ r.status = 201)
    ∧ ((addTraining net t).1 = true ↔
      ∃ r, net (addTrainingReq t) = Except.ok r ∧ r.ok = true) := by
  constructor
  · cases h : net (addCustomerReq c) with
    | error e => simp [addCustomer, h]
    | ok r => simp [addCustomer, h]
  · cases h : net (addTrainingReq t) with
    | error e => simp [addTraining, respOk, h]
    | ok r => simp [addTraining, respOk, h]

/-- C6 (witness): both directions evaluated on constant networks. -/
theorem C6_create_success_statuses_witness :
    (addCustomer net201 c0).1 = true ∧ (addTraining net200 trYoga).1 = true :=
  ⟨((C6_create_success_statuses net201 c0 trYoga).1).mpr
      ⟨⟨201, RespBody.emptyBody⟩, rfl, rfl⟩,
   ((C6_create_success_statuses net200 c0 trYoga).2).mpr
      ⟨⟨200, RespBody.emptyBody⟩, rfl, rfl⟩⟩

/-- C7: no CRUD operation propagates a failure past its boundary — on a
network that throws on every request each operation returns `false` or an
empty collection (and the lookup returns `none`), and a delete answered with a
non-2xx status (the second delete of an already-deleted entity) reports
failure instead of throwing, for both the string and the object form. -/
theorem C7_failures_contained (net : Net) (c : Customer) (cr : CustomerRef)
    (ti : TrainingInput) (tid : String) (tr : TrainingRef) (t : Training) (s : String) :
    ((∀ r, net r = Except.error ()) →
      (getCustomers net).1 = []
      ∧ (getTrainings net).1 = []
      ∧ (findCustomerByData net c).1 = none
      ∧ (addCustomer net c).1 = false
      ∧ (updateCustomer net c).1 = false
      ∧ (deleteCustomer net cr).1 = false
      ∧ (addTraining net ti).1 = false
      ∧ (updateTraining net tid ti).1 = false
      ∧ (deleteTraining net tr).1 = false
      ∧ (resetDatabase net).1 = false)
    ∧ (∀ r2, net ⟨Method.delete,
          if jsStartsWith s "http" then s else trainingsEndpoint ++ "/" ++ s, none⟩
          = Except.ok r2 → r2.ok = false →
        (deleteTraining net (TrainingRef.ofString s)).1 = false)
    ∧ (strTruthy t.selfHref = true →
        ∀ r2, net ⟨Method.delete, t.selfHref.getD "", none⟩ = Except.ok r2 →
          r2.ok = false →
          (deleteTraining net (TrainingRef.ofTraining t)).1 = false) := by
  refine ⟨?_, ?_, ?_⟩
  · intro hAll
    have hg : (getCustomers net).1 = [] := by
      simp [getCustomers, hAll]
    have hfind : ∀ cc : Customer, (findCustomerByData net cc).1 = none := by
      intro cc
      unfold findCustomerByData
      cases hid2 : getCustomerId (CustomerRef.ofCustomer cc) with
      | none => simp [hg]
      | some cid => simp [hAll, hg]
    have hup : ∀ cc : Customer, (updateCustomer net cc).1 = false := by
      intro cc
      cases hs : strTruthy cc.selfHref with
      | true =>
        rw [updateCustomer_self net cc hs, respOk_throw net _ (hAll _)]
      | false =>
        cases hid2 : getCustomerId (CustomerRef.ofCustomer cc) with
        | some cid =>
          rw [updateCustomer_byId net cc cid hs hid2, respOk_throw net _ (hAll _)]
        | none =>
          rcases hpair : findCustomerByData net cc with ⟨m, t1⟩
          have hm : m = none := by
            have h0 := hfind cc
            rw [hpair] at h0
            exact h0
          subst hm
          rw [updateCustomer_fallback_noMatch net cc t1 hs hid2 hpair]
          simp [addCustomer, hAll]
    have hdel : ∀ cr2 : CustomerRef, (deleteCustomer net cr2).1 = false := by
      intro cr2
      cases cr2 with
      | ofString s2 =>
        cases hs : jsStartsWith s2 "http" with
        | true => simp [deleteCustomer, hs, respOk, hAll]
        | false => simp [deleteCustomer, hs, respOk, hAll]
      | ofCustomer cc =>
        cases hs : strTruthy cc.selfHref with
        | true => simp [deleteCustomer, hs, respOk, hAll]
        | false =>
          rcases hpair : findCustomerByData net cc with ⟨m, t1⟩
          have hm : m = none := by
            have h0 := hfind cc
            rw [hpair] at h0
            exact h0
          subst hm
          rw [deleteCustomer_noMatch net cc t1 hs hpair]
    have hdt : ∀ tr2 : TrainingRef, (deleteTraining net tr2).1 = false := by
      intro tr2
      cases tr2 with
      | ofString s2 =>
        cases hs : jsStartsWith s2 "http" with
        | true => simp [deleteTraining, hs, respOk, hAll]
        | false => simp [deleteTraining, hs, respOk, hAll]
      | ofTraining t2 =>
        cases hs : strTruthy t2.selfHref with
        | true => simp [deleteTraining, hs, respOk, hAll]
        | false =>
          cases hn : natTruthy t2.id with
          | true => simp [deleteTraining, hs, hn, respOk, hAll]
          | false => simp [deleteTraining, hs, hn]
    exact ⟨hg, by simp [getTrainings, hAll], hfind c, by simp [addCustomer, hAll],
      hup c, hdel cr, by simp [addTraining, respOk, hAll],
      by simp [updateTraining, respOk, hAll], hdt tr,
      by simp [resetDatabase, respOk, hAll]⟩
  · intro r2 hok hfalse
    cases hs : jsStartsWith s "http" with
    | true =>
      rw [hs] at hok
      simp only [if_true] at hok
      simp [deleteTraining, hs, respOk, hok, hfalse]
    | false =>
      rw [hs] at hok
      simp only [Bool.false_eq_true, if_false] at hok
      simp [deleteTraining, hs, respOk, hok, hfalse]
  · intro hself r2 hok hfalse
    simp [deleteTraining, hself, respOk, hok, hfalse]

/-- C7 (witness): the containment evaluated on the throwing network and a
404-answering network. -/
theorem C7_failures_contained_witness :
    (getCustomers netErr).1 = []
    ∧ (deleteTraining net404 (TrainingRef.ofString "9")).1 = false :=
  ⟨((C7_failures_contained netErr c0 (CustomerRef.ofString "x") trYoga "1"
        (TrainingRef.ofString "9") tEx "9").1 (fun r => rfl)).1,
   (C7_failures_contained net404 c0 (CustomerRef.ofString "x") trYoga "1"
        (TrainingRef.ofString "9") tEx "9").2.1 ⟨404, RespBody.emptyBody⟩ rfl rfl⟩

/-- C8: a collection payload with no embedded customer array makes
`getCustomers` return the empty list (after its one GET), not an error. -/
theorem C8_missing_embedded_is_empty (net : Net) (st : Nat)
    (h : net getCustomersReq = Except.ok ⟨st, RespBody.halCustomers none⟩) :
    getCustomers net = ([], [getCustomersReq]) := by
  cases hok : Response.ok ⟨st, RespBody.halCustomers none⟩ with
  | true => simp [getCustomers, h, hok]
  | false => simp [getCustomers, h, hok]

/-- C8 (witness): evaluated on the embedded-array-free network. -/
theorem C8_missing_embedded_is_empty_witness :
    getCustomers netNoEmb = ([], [getCustomersReq]) :=
  C8_missing_embedded_is_empty netNoEmb 200 rfl

/-- C9: collection normalization always yields a full links block — each
canonical relation field (`self`, `customer`, `trainings`) is present, an
absent backend `_links` key is mapped to the empty-string placeholder — and
every customer produced by `getCustomers` carries all three fields. -/
theorem C9_normalized_links_always_present (a : RawCustomer) (net : Net) (c : Customer)
    (hc : c ∈ (getCustomers net).1) :
    (normalizeApiCustomer a).links
      = some ⟨some (hrefOrEmpty a.links Links.self),
          some (hrefOrEmpty a.links Links.customer),
          some (hrefOrEmpty a.links Links.trainings)⟩
    ∧ (a.links = none → (normalizeApiCustomer a).links = some ⟨some "", some "", some ""⟩)
    ∧ ∃ l, c.links = some l ∧ l.self ≠ none ∧ l.customer ≠ none ∧ l.trainings ≠ none := by
  refine ⟨rfl, ?_, ?_⟩
  · intro h
    simp [normalizeApiCustomer, hrefOrEmpty, h]
  · unfold getCustomers at hc
    cases hnet : net getCustomersReq with
    | error e =>
      rw [hnet] at hc
      simp at hc
    | ok r =>
      rw [hnet] at hc
      cases hok : r.ok with
      | false => simp [hok] at hc
      | true =>
        cases hb : r.body with
        | halCustomers emb =>
          cases emb with
          | none => simp [hok, hb] at hc
          | some cs =>
            simp only [hok, hb, if_true, List.mem_map] at hc
            obtain ⟨a2, _, rfl⟩ := hc
            exact ⟨_, rfl, by simp [normalizeApiCustomer], by simp [normalizeApiCustomer],
              by simp [normalizeApiCustomer]⟩
        | oneCustomer c2 => simp [hok, hb] at hc
        | trainingArray ts => simp [hok, hb] at hc
        | emptyBody => simp [hok, hb] at hc

/-- C9 (witness): evaluated on the two-record network fixture. -/
theorem C9_normalized_links_always_present_witness :
    (normalizeApiCustomer rawA).links
      = some ⟨some (hrefOrEmpty rawA.links Links.self),
          some (hrefOrEmpty rawA.links Links.customer),
          some (hrefOrEmpty rawA.links Links.trainings)⟩
    ∧ ∃ l, (normalizeApiCustomer rawA).links = some l
        ∧ l.self ≠ none ∧ l.customer ≠ none ∧ l.trainings ≠ none :=
  ⟨(C9_normalized_links_always_present rawA netDup (normalizeApiCustomer rawA)
      (by decide)).1,
   (C9_normalized_links_always_present rawA netDup (normalizeApiCustomer rawA)
      (by decide)).2.2⟩

/-- C10: the lazy-loader merge sets the customer field of exactly those
trainings whose own self href equals the parent training's self href, keeps
every other training, every other field and the order unchanged, and
`fetchCustomerForTraining` performs exactly this merge (with a single GET of
the parent's customer link) when the fetch succeeds. -/
theorem C10_merge_keyed_by_parent_address (ts : List Training) (parent : Training)
    (cu : Customer) (net : Net) (i : Nat) :
    (mergeCustomerIntoTrainings ts parent cu).length = ts.length
    ∧ (mergeCustomerIntoTrainings ts parent cu)[i]?
        = (ts[i]?).map (fun t =>
            if t.selfHref = parent.selfHref then { t with customer := some cu } else t)
    ∧ (parent.customer = none → parent.customerHref.isSome = true →
        ∀ r, net (customerLinkReq parent) = Except.ok r → r.ok = true →
          r.body = RespBody.oneCustomer cu →
          fetchCustomerForTraining net ts parent
            = (mergeCustomerIntoTrainings ts parent cu, [customerLinkReq parent])) := by
  refine ⟨List.length_map _ _, ?_, ?_⟩
  · simp [mergeCustomerIntoTrainings, List.getElem?_map]
  · intro h1 h2 r hr hok hb
    simp [fetchCustomerForTraining, h1, h2, hr, hok, hb]

/-- C10 (witness): the merge evaluated on a singleton collection whose one
training is the parent itself. -/
theorem C10_merge_keyed_by_parent_address_witness :
    fetchCustomerForTraining netCust [tParent] tParent
      = (mergeCustomerIntoTrainings [tParent] tParent c0, [customerLinkReq tParent]) :=
  (C10_merge_keyed_by_parent_address [tParent] tParent c0 netCust 0).2.2 rfl rfl
    ⟨200, RespBody.oneCustomer c0⟩ rfl rfl rfl

end PT
